import Mathlib

/-!
Verification of the pattern-matching and state-tracking core of the
eslint-plugin-firebase-ai-logic rule pack.

The development shallowly embeds the ESTree node shapes the rules inspect,
the node-predicate helpers of `src/utils/ast-helpers.ts`, and the per-file
visitor state machines of the rules `require-ai-before-model`,
`require-grounding-compliance`, `no-google-genai-import`,
`no-verbose-prompts`, `no-streaming-with-schema` and
`require-app-check-production`.  A file is modelled as the sequence of
visitor callbacks the host linting engine fires during its single
depth-first walk; each rule is a fold of its per-file state over that
sequence, emitting findings along the way.
-/

/-- The value carried by an ESTree `Literal` node (string, number, boolean
or null are the shapes the rules inspect). -/
inductive LitValue where
  | str (s : String)
  | num (n : Int)
  | boolean (b : Bool)
  | nul
  deriving Repr, DecidableEq

/-- The fragment of ESTree node shapes consumed by the rule pack.
`OtherNode` stands for every node kind the predicates do not handle.
`MemberExpression` and `Property` keep their `computed` flag and `Property`
its `kind` ("init" / "get" / "set"), because the helpers read only the key
or property sub-node and never consult these flags. -/
inductive Node where
  | Identifier (name : String)
  | Literal (value : LitValue)
  | TemplateLiteral (quasis : List (Option String)) (expressions : List Node)
  | CallExpression (callee : Node) (args : List Node)
  | NewExpression (callee : Node) (args : List Node)
  | MemberExpression (object : Node) (property : Node) (computed : Bool)
  | ObjectExpression (properties : List Node)
  | Property (key : Node) (value : Node) (kind : String) (computed : Bool)
  | SpreadElement (argument : Node)
  | UnaryExpression (operator : String) (argument : Node)
  | ArrayExpression (elements : List Node)
  | ThisExpression
  | BlockStatement (body : List Node)
  | ExpressionStatement (expression : Node)
  | AssignmentExpression (left : Node) (right : Node)
  | VariableDeclaration (declarations : List Node)
  | VariableDeclarator (id : Node) (init : Option Node)
  | IfStatement (test : Node) (consequent : Node) (alternate : Option Node)
  | ReturnStatement (argument : Option Node)
  | ArrowFunctionExpression (body : Node)
  | FunctionExpression (body : Node)
  | Program
  | OtherNode (tag : String)
  deriving Repr

/-- JS `String.prototype.startsWith`. -/
def strStartsWith (s pre : String) : Bool :=
  pre.toList.isPrefixOf s.toList

/-- JS `String.prototype.endsWith`. -/
def strEndsWith (s suf : String) : Bool :=
  suf.toList.isSuffixOf s.toList

/-- JS `String.prototype.includes` with a one-character needle. -/
def strContainsChar (s : String) (c : Char) : Bool :=
  s.toList.contains c

/-- JS `String.prototype.toLowerCase` (ASCII case folding suffices for
the pattern strings the rules use). -/
def strToLower (s : String) : String :=
  ⟨s.toList.map Char.toLower⟩

/-- JS `String.prototype.includes`: `needle` occurs as a contiguous
substring of `hay`. -/
def strIncludes (hay needle : String) : Bool :=
  (List.range (hay.toList.length + 1)).any
    (fun i => needle.toList.isPrefixOf (hay.toList.drop i))

/-- The recursion behind JS `String.prototype.split('.')` on the list of
characters: split at every separator occurrence, keeping empty pieces. -/
def splitCharList (c : Char) : List Char → List (List Char)
  | [] => [[]]
  | x :: xs =>
      match splitCharList c xs with
      | [] => [[]]
      | h :: t => if x = c then [] :: h :: t else (x :: h) :: t

/-- JS `path.split('.')`. -/
def splitOnDot (s : String) : List String :=
  (splitCharList '.' s.toList).map (fun l => ⟨l⟩)


/- ------------------------------------------------------------------
Node predicates (src/utils/ast-helpers.ts).  The TypeScript signatures
accept `Node | null | undefined`; those are embedded as `Option Node`.
------------------------------------------------------------------ -/

/-- `isStringLiteral`: the node is a `Literal` whose value is a string. -/
def isStringLiteral : Option Node → Bool
  | some (.Literal (.str _)) => true
  | _ => false

/-- `isTemplateLiteral`. -/
def isTemplateLiteral : Option Node → Bool
  | some (.TemplateLiteral _ _) => true
  | _ => false

/-- `getStringValue`: string literal value, or the cooked text of a
template literal with exactly one quasi and no interpolations. -/
def getStringValue : Option Node → Option String
  | none => none
  | some (.Literal (.str s)) => some s
  | some (.TemplateLiteral [q] []) => q
  | _ => none

/-- `getNumberValue`: numeric literal, or unary minus of a numeric
literal. -/
def getNumberValue : Option Node → Option Int
  | none => none
  | some (.Literal (.num n)) => some n
  | some (.UnaryExpression "-" (.Literal (.num n))) => some (-n)
  | _ => none

/-- `isIdentifier(node)` with the name argument omitted. -/
def isIdentifierAny : Option Node → Bool
  | some (.Identifier _) => true
  | _ => false

/-- `isIdentifier(node, name)` with an explicit expected name. -/
def isIdentifierNamed (n : Option Node) (name : String) : Bool :=
  match n with
  | some (.Identifier nm) => nm = name
  | _ => false

/-- `isCallExpression`. -/
def isCallExpressionB : Option Node → Bool
  | some (.CallExpression _ _) => true
  | _ => false

/-- `isMemberExpression`. -/
def isMemberExpressionB : Option Node → Bool
  | some (.MemberExpression _ _ _) => true
  | _ => false

/-- `isObjectExpression`. -/
def isObjectExpressionB : Option Node → Bool
  | some (.ObjectExpression _) => true
  | _ => false

/-- `isProperty`. -/
def isPropertyB : Option Node → Bool
  | some (.Property _ _ _ _) => true
  | _ => false

/-- `getPropertyName(property)`: identifier key name or string-literal key
value, otherwise null.  The `computed` flag and the property `kind` are
not consulted (exactly as in the source). -/
def getPropertyName : Node → Option String
  | .Property key _ _ _ =>
      match key with
      | .Identifier nm => some nm
      | .Literal (.str s) => some s
      | _ => none
  | _ => none

/-- `findProperty(obj, name)` evaluates `obj.properties.find(...)`
unconditionally.  Its TypeScript signature restricts `obj` to object
literals; called there it returns the first element of `obj.properties`
that is a `Property` whose `getPropertyName` equals `name` (`.ok`).
Called dynamically on null/undefined or on any node without a
`properties` array, the member access / `find` call throws a TypeError,
embedded as `.error "TypeError"`. -/
def findProperty (obj : Option Node) (name : String) : Except String (Option Node) :=
  match obj with
  | some (.ObjectExpression props) =>
      .ok (props.find? (fun p => isPropertyB (some p) && (getPropertyName p == some name)))
  | _ => .error "TypeError"

/-- The property `value` sub-node of a `Property` node. -/
def propValue : Node → Option Node
  | .Property _ v _ _ => some v
  | _ => none

/-- The loop of `findNestedProperty`, over the already-split path parts:
look up each part in turn, return the property reached by the last part,
and give up (undefined) when a part is missing or an intermediate value
is not an object literal.  Only the first `findProperty` call can throw
(a non-object root); later iterations are guarded by
`isObjectExpression(prop.value)`. -/
def findNestedPropertyParts : Option Node → List String → Except String (Option Node)
  | _, [] => .ok none
  | obj, part :: rest =>
      match findProperty obj part with
      | .error e => .error e
      | .ok none => .ok none
      | .ok (some prop) =>
          match rest with
          | [] => .ok (some prop)
          | _ :: _ =>
              match propValue prop with
              | some v =>
                  if isObjectExpressionB (some v) then findNestedPropertyParts (some v) rest
                  else .ok none
              | none => .ok none

/-- `findNestedProperty(obj, path)` with a dotted path such as
`generationConfig.responseSchema`; throws (`.error`) exactly when called
on a non-object root. -/
def findNestedProperty (obj : Option Node) (path : String) : Except String (Option Node) :=
  findNestedPropertyParts obj (splitOnDot path)

/-- The `.ok` payload of a call that cannot throw (used only behind an
`isObjectExpression` guard, where `findProperty` never errors). -/
def okPayload : Except String (Option Node) → Option Node
  | .ok r => r
  | .error _ => none

/-- The callee-shape dispatch shared by `getCalleeName`: identifier name,
or the property name of a member expression whose property sub-node is an
identifier.  The `computed` flag of the member expression is not
consulted. -/
def calleeNameOf : Node → Option String
  | .Identifier nm => some nm
  | .MemberExpression _ (.Identifier nm) _ => some nm
  | _ => none

/-- `getCalleeName(node)` for call and construction expressions. -/
def getCalleeName : Node → Option String
  | .CallExpression callee _ => calleeNameOf callee
  | .NewExpression callee _ => calleeNameOf callee
  | _ => none

/-- JS `typeof` applied to a literal's runtime value (`typeof null` is
"object"). -/
def typeofLit : LitValue → String
  | .str _ => "string"
  | .num _ => "number"
  | .boolean _ => "boolean"
  | .nul => "object"

/- ------------------------------------------------------------------
Findings and traversal events.
------------------------------------------------------------------ -/

/-- An import specifier as the rules read it: for `ImportSpecifier` only
the imported name (when the `imported` sub-node is an identifier) and the
local name are consulted; default and namespace specifiers carry their
local name. -/
inductive ImportSpec where
  | importSpecifier (imported : Option String) (localName : String)
  | importDefaultSpecifier (localName : String)
  | importNamespaceSpecifier (localName : String)
  deriving Repr, DecidableEq

/-- The syntax-tree node a finding is anchored at. -/
inductive Anchor where
  | node (n : Node)
  | importDecl (source : Node) (specifiers : List ImportSpec)
  | program
  deriving Repr

/-- The auto-fix attached to a finding: a textual replacement of the
reported statement. -/
inductive RuleFix where
  | replaceText (text : String)
  deriving Repr, DecidableEq

/-- One reported diagnostic: anchor, message id, interpolation data and
optional fix. -/
structure Finding where
  anchor : Anchor
  messageId : String
  data : List (String × String)
  fix : Option RuleFix
  deriving Repr

/-- The parent-node context a `CallExpression` visit carries (the rules
read `node.parent` only through these shapes). -/
inductive ParentCtx where
  | varDeclarator (id : Node)
  | assignExpr (left : Node)
  | propertyDef (key : Node)
  | otherParent
  deriving Repr

/-- One visitor callback fired by the host engine during its depth-first
walk of a file, in tree order.  A file is a `List Event`. -/
inductive Event where
  | importDecl (source : Node) (specifiers : List ImportSpec)
  | functionDecl (id : Option String) (body : Node)
  | varDeclarator (id : Node) (init : Option Node)
  | assignExpr (left : Node) (right : Node)
  | propertyDef (key : Node) (value : Option Node)
  | callExpr (node : Node) (parent : ParentCtx)
  | propertyVisit (node : Node)
  | identifierVisit (name : String)
  | literalVisit (value : LitValue)
  deriving Repr

/- ------------------------------------------------------------------
require-grounding-compliance (src/rules/require-grounding-compliance.ts):
two boolean latches set during traversal, one deferred report at
Program:exit.
------------------------------------------------------------------ -/

/-- The two per-file latches of `require-grounding-compliance`. -/
structure GroundingState where
  groundingEnabled : Bool
  searchEntryPointAccessed : Bool
  deriving Repr, DecidableEq

/-- The visitor of `require-grounding-compliance`: a `Property` whose key
is the identifier `googleSearch` sets the first latch; an `Identifier`
named `searchEntryPoint` or a `Literal` with value `'searchEntryPoint'`
sets the second. -/
def groundingStep (st : GroundingState) (ev : Event) : GroundingState :=
  match ev with
  | .propertyVisit n =>
      match n with
      | .Property (.Identifier "googleSearch") _ _ _ =>
          { st with groundingEnabled := true }
      | _ => st
  | .identifierVisit name =>
      if name = "searchEntryPoint" then { st with searchEntryPointAccessed := true }
      else st
  | .literalVisit v =>
      if v = .str "searchEntryPoint" then { st with searchEntryPointAccessed := true }
      else st
  | _ => st

/-- Run `require-grounding-compliance` over one file: fold the latches
over the events, then the `Program:exit` report, anchored at the Program
node, if grounding was enabled and no search-entry-point access was
seen. -/
def runGrounding (events : List Event) : List Finding :=
  let st := events.foldl groundingStep ⟨false, false⟩
  if st.groundingEnabled && !st.searchEntryPointAccessed then
    [⟨Anchor.program, "missingSearchEntryPoint", [], none⟩]
  else []

/-- Does this event set the `groundingEnabled` latch? -/
def enablesGrounding : Event → Bool
  | .propertyVisit (.Property (.Identifier "googleSearch") _ _ _) => true
  | _ => false

/-- Does this event set the `searchEntryPointAccessed` latch? -/
def marksSearchEntryPoint : Event → Bool
  | .identifierVisit name => name = "searchEntryPoint"
  | .literalVisit v => v = .str "searchEntryPoint"
  | _ => false

/- ------------------------------------------------------------------
require-ai-before-model (src/rules/require-ai-before-model.ts).
------------------------------------------------------------------ -/

/-- `Set.add` on the string sets of the fact stores: append the element
when it is not already present. -/
def addStr (l : List String) (s : String) : List String :=
  if l.contains s then l else l ++ [s]

/-- `matchesAIWrapperPattern`: the regex battery `AI_WRAPPER_PATTERNS`
(`/^getAI/i`, `/^createAI/i`, `/^initAI/i`, `/^aiInstance$/i`,
`/^aiClient$/i`, `/^firebaseAI$/i`, `/AI$/` case-sensitive,
`/AIInstance$/i`) expressed as string tests. -/
def matchesAIWrapperPattern (name : String) : Bool :=
  let lower := strToLower name
  strStartsWith lower "getai" || strStartsWith lower "createai" ||
  strStartsWith lower "initai" || lower = "aiinstance" || lower = "aiclient" ||
  lower = "firebaseai" || strEndsWith name "AI" || strEndsWith lower "aiinstance"

/-- The four per-file fact sets of `require-ai-before-model`. -/
structure AiRuleState where
  aiVariables : List String
  classAiProperties : List String
  aiWrapperFunctions : List String
  importedAIWrappers : List String
  deriving Repr

/-- The empty fact store `create` allocates for each file. -/
def initAiRuleState : AiRuleState := ⟨[], [], [], []⟩

/-- `getAssignmentTargetName`: identifier name, or `this.<prop>` for a
member expression on `this` with an identifier property. -/
def getAssignmentTargetName : Node → Option String
  | .Identifier nm => some nm
  | .MemberExpression .ThisExpression (.Identifier p) _ => some ("this." ++ p)
  | _ => none

/-- `getFirstArgPattern`: identifier, `this.<prop>`, or `<obj>.<prop>` for
an identifier-on-identifier member expression. -/
def getFirstArgPattern : Node → Option String
  | .Identifier nm => some nm
  | .MemberExpression .ThisExpression (.Identifier p) _ => some ("this." ++ p)
  | .MemberExpression (.Identifier o) (.Identifier p) _ => some (o ++ "." ++ p)
  | _ => none

/-- `isKnownAiInstance`: tracked in either fact set, or a dotted property
access that does not start with `this.` (assumed valid, conservative
non-report). -/
def isKnownAiInstance (st : AiRuleState) (pattern : String) : Bool :=
  if st.aiVariables.contains pattern then true
  else if st.classAiProperties.contains pattern then true
  else if strContainsChar pattern '.' && !strStartsWith pattern "this." then true
  else false

/-- `isGetAICall`: a call expression whose callee name is `getAI`. -/
def isGetAICall (n : Node) : Bool :=
  isCallExpressionB (some n) && (getCalleeName n == some "getAI")

/-- The `VariableDeclaration` pass inside `functionReturnsAI`: record
every declarator initialized from a `getAI()` call. -/
def collectDeclLocals (locals : List String) (decls : List Node) : List String :=
  decls.foldl
    (fun acc d =>
      match d with
      | .VariableDeclarator (.Identifier nm) (some init) =>
          if isGetAICall init then addStr acc nm else acc
      | _ => acc)
    locals

/-- The `IfStatement` pass inside `functionReturnsAI`: record assignments
`x = getAI(...)` inside a block consequent. -/
def collectIfLocals (locals : List String) (consequent : Node) : List String :=
  match consequent with
  | .BlockStatement inner =>
      inner.foldl
        (fun acc stmt =>
          match stmt with
          | .ExpressionStatement (.AssignmentExpression (.Identifier nm) right) =>
              if isGetAICall right then addStr acc nm else acc
          | _ => acc)
        locals
  | _ => locals

/-- The statement loop of `functionReturnsAI`: walk the block statements
in order, accumulating the local names assigned from `getAI()`, and
return true at the first `return` of a `getAI()` call or of a recorded
local. -/
def functionReturnsAIGo : List Node → List String → Bool
  | [], _ => false
  | stmt :: rest, locals =>
      match stmt with
      | .ExpressionStatement (.AssignmentExpression (.Identifier nm) right) =>
          if isGetAICall right then functionReturnsAIGo rest (addStr locals nm)
          else functionReturnsAIGo rest locals
      | .VariableDeclaration decls =>
          functionReturnsAIGo rest (collectDeclLocals locals decls)
      | .IfStatement _ consequent _ =>
          functionReturnsAIGo rest (collectIfLocals locals consequent)
      | .ReturnStatement (some arg) =>
          if isGetAICall arg then true
          else
            match arg with
            | .Identifier nm =>
                if locals.contains nm then true else functionReturnsAIGo rest locals
            | _ => functionReturnsAIGo rest locals
      | _ => functionReturnsAIGo rest locals

/-- `functionReturnsAI(body)`: an expression body that is a direct
`getAI()` call, or a block whose statements return `getAI()` or a local
assigned from it. -/
def functionReturnsAI (body : Node) : Bool :=
  match body with
  | .BlockStatement stmts => functionReturnsAIGo stmts []
  | b => isGetAICall b

/-- `isAIWrapperCall`: the callee is a tracked local wrapper function or a
tracked imported wrapper name. -/
def isAIWrapperCall (st : AiRuleState) (calleeName : Option String) : Bool :=
  match calleeName with
  | none => false
  | some nm => st.aiWrapperFunctions.contains nm || st.importedAIWrappers.contains nm

/-- The `CallExpression` callback of `require-ai-before-model`: check
`getGenerativeModel(...)` calls against the fact store.  Reports are
anchored at the whole call only in the zero-argument case; otherwise at
the first argument. -/
def checkGetGenerativeModel (st : AiRuleState) (node : Node) : List Finding :=
  match getCalleeName node with
  | some calleeName =>
    if calleeName = "getGenerativeModel" then
      match node with
      | .CallExpression _ args =>
          match args with
          | [] => [⟨Anchor.node node, "missingGetAI", [], none⟩]
          | firstArg :: _ =>
              match firstArg with
              | .Identifier _ | .MemberExpression _ _ _ =>
                  (match getFirstArgPattern firstArg with
                   | some pattern =>
                       if isKnownAiInstance st pattern then []
                       else if st.aiVariables.isEmpty && st.classAiProperties.isEmpty
                               && !strStartsWith pattern "this." then []
                       else [⟨Anchor.node firstArg, "wrongFirstArg",
                              [("argType", pattern)], none⟩]
                   | none => [])
              | .Literal v =>
                  [⟨Anchor.node firstArg, "wrongFirstArg",
                    [("argType", typeofLit v)], none⟩]
              | .ObjectExpression _ =>
                  [⟨Anchor.node firstArg, "wrongFirstArg",
                    [("argType", "object")], none⟩]
              | .CallExpression _ _ =>
                  (match getCalleeName firstArg with
                   | some "getAI" => []
                   | innerCallee =>
                       if isAIWrapperCall st innerCallee then []
                       else [⟨Anchor.node firstArg, "wrongFirstArg",
                              [("argType", (innerCallee.getD "function call"))], none⟩])
              | _ => []
      | _ => []
    else []
  | none => []

/-- The `ImportDeclaration` callback: record local names of named and
default import specifiers that match the AI wrapper naming patterns. -/
def aiImportStep (st : AiRuleState) (specifiers : List ImportSpec) : AiRuleState :=
  specifiers.foldl
    (fun acc spec =>
      let localName : Option String :=
        match spec with
        | .importSpecifier _ l => some l
        | .importDefaultSpecifier l => some l
        | .importNamespaceSpecifier _ => none
      match localName with
      | some l =>
          if matchesAIWrapperPattern l then
            { acc with importedAIWrappers := addStr acc.importedAIWrappers l }
          else acc
      | none => acc)
    st

/-- One visitor callback of `require-ai-before-model`: update the fact
store and collect the findings this callback reports. -/
def aiStep (st : AiRuleState) (ev : Event) : AiRuleState × List Finding :=
  match ev with
  | .importDecl _ specifiers => (aiImportStep st specifiers, [])
  | .functionDecl id body =>
      (match id with
       | some nm =>
           if functionReturnsAI body then
             ({ st with aiWrapperFunctions := addStr st.aiWrapperFunctions nm }, [])
           else (st, [])
       | none => (st, []))
  | .varDeclarator id init =>
      let st1 :=
        match id, init with
        | .Identifier nm, some i =>
            if isCallExpressionB (some i) && (getCalleeName i == some "getAI") then
              { st with aiVariables := addStr st.aiVariables nm }
            else st
        | _, _ => st
      let st2 :=
        match id, init with
        | .Identifier nm, some (.ArrowFunctionExpression body) =>
            if functionReturnsAI body then
              { st1 with aiWrapperFunctions := addStr st1.aiWrapperFunctions nm }
            else st1
        | .Identifier nm, some (.FunctionExpression body) =>
            if functionReturnsAI body then
              { st1 with aiWrapperFunctions := addStr st1.aiWrapperFunctions nm }
            else st1
        | _, _ => st1
      (st2, [])
  | .assignExpr left right =>
      if isCallExpressionB (some right) && (getCalleeName right == some "getAI") then
        match getAssignmentTargetName left with
        | some targetName =>
            if strStartsWith targetName "this." then
              ({ st with classAiProperties := addStr st.classAiProperties targetName }, [])
            else ({ st with aiVariables := addStr st.aiVariables targetName }, [])
        | none => (st, [])
      else (st, [])
  | .propertyDef key value =>
      (match key, value with
       | .Identifier nm, some v =>
           if isCallExpressionB (some v) && (getCalleeName v == some "getAI") then
             ({ st with classAiProperties := addStr st.classAiProperties ("this." ++ nm) }, [])
           else (st, [])
       | _, _ => (st, []))
  | .callExpr node _ => (st, checkGetGenerativeModel st node)
  | _ => (st, [])

/-- Fold the `require-ai-before-model` visitor over a file suffix,
threading the fact store and concatenating the findings in report
order. -/
def aiFold (st : AiRuleState) : List Event → AiRuleState × List Finding
  | [] => (st, [])
  | ev :: rest =>
      let (st1, fs1) := aiStep st ev
      let (st2, fs2) := aiFold st1 rest
      (st2, fs1 ++ fs2)

/-- The fact store after the events of a file prefix. -/
def aiStateOf (events : List Event) : AiRuleState :=
  (aiFold initAiRuleState events).1

/-- Run `require-ai-before-model` over one file (fresh fact store). -/
def runAiBeforeModel (events : List Event) : List Finding :=
  (aiFold initAiRuleState events).2

/- ------------------------------------------------------------------
no-verbose-prompts (second rule in src/rules/no-google-genai-import.ts
source slice): length threshold and verbose-phrase scan on static
prompt strings.
------------------------------------------------------------------ -/

/-- The default of the `maxPromptLength` option (`options.maxPromptLength
?? 1000`). -/
def defaultMaxPromptLength : Nat := 1000

/-- The verbose/redundant phrase table of `no-verbose-prompts`. -/
def verbosePhrases : List String :=
  ["i would like you to", "could you please", "can you please",
   "please provide me with", "i want you to", "i need you to",
   "be as comprehensive as possible", "as detailed as possible",
   "carefully and thoroughly", "in great detail", "step by step explanation",
   "make sure to include", "do not forget to", "remember to", "be sure to",
   "it is important that", "please ensure that", "the following is",
   "as follows:", "in the following", "provided below", "mentioned above"]

/-- The AI method names whose first argument is treated as a prompt. -/
def aiMethods : List String :=
  ["generateContent", "generateContentStream", "sendMessage", "sendMessageStream"]

/-- `checkPrompt`: report `verbosePrompt` (with the measured length as
interpolation data) when the text exceeds the threshold, otherwise report
the first verbose phrase found, otherwise nothing. -/
def checkPrompt (maxPromptLength : Nat) (node : Node) (promptText : String) :
    List Finding :=
  if promptText.length > maxPromptLength then
    [⟨Anchor.node node, "verbosePrompt",
      [("length", toString promptText.length)], none⟩]
  else
    let lowerPrompt := strToLower promptText
    match verbosePhrases.find? (fun phrase => strIncludes lowerPrompt phrase) with
    | some phrase => [⟨Anchor.node node, "redundantPhrases", [("phrase", phrase)], none⟩]
    | none => []

/-- The `CallExpression` callback of `no-verbose-prompts`: on a call to an
AI method, check the first argument when it is a static string (string
literal or zero-interpolation template; JS truthiness makes the empty
string fall through to the template branch) or a template literal whose
cooked quasis are joined. -/
def noVerbosePromptsCall (maxPromptLength : Nat) (node : Node) : List Finding :=
  match getCalleeName node with
  | none => []
  | some calleeName =>
      if !(aiMethods.contains calleeName) then []
      else
        match node with
        | .CallExpression _ args =>
            match args with
            | [] => []
            | promptArg :: _ =>
                let templateCase : List Finding :=
                  match promptArg with
                  | .TemplateLiteral quasis _ =>
                      checkPrompt maxPromptLength promptArg
                        (String.join (quasis.map (fun q => q.getD "")))
                  | _ => []
                match getStringValue (some promptArg) with
                | some s => if s = "" then templateCase
                            else checkPrompt maxPromptLength promptArg s
                | none => templateCase
        | _ => []

/- ------------------------------------------------------------------
no-google-genai-import (src/rules/no-google-genai-import.ts): one
finding per deprecated import declaration, with a computed fix.
------------------------------------------------------------------ -/

/-- The rule's `meta.type`. -/
def noGoogleGenaiImportMetaType : String := "problem"

/-- The static rename table `importMapping` from `@google/generative-ai`
symbols to `firebase/ai` symbols. -/
def importMapping : String → Option String
  | "GoogleGenerativeAI" => some "getAI"
  | "GenerativeModel" => some "getGenerativeModel"
  | "HarmCategory" => some "HarmCategory"
  | "HarmBlockThreshold" => some "HarmBlockThreshold"
  | _ => none

/-- The mapped name a specifier contributes: only named import specifiers
whose `imported` sub-node is an identifier are consulted. -/
def mappedNameOf : ImportSpec → Option String
  | .importSpecifier (some orig) _ => importMapping orig
  | _ => none

/-- Does a specifier import `GoogleGenerativeAI` (which forces
`GoogleAIBackend` into the replacement import)? -/
def importsGoogleGenerativeAI : ImportSpec → Bool
  | .importSpecifier (some "GoogleGenerativeAI") _ => true
  | _ => false

/-- The specifier loop of the fixer: push each mapped name not already
pushed, in specifier order. -/
def collectNewImports : List ImportSpec → List String → List String
  | [], acc => acc
  | spec :: rest, acc =>
      match mappedNameOf spec with
      | some newName =>
          if acc.contains newName then collectNewImports rest acc
          else collectNewImports rest (acc ++ [newName])
      | none => collectNewImports rest acc

/-- The fixer of `no-google-genai-import`: side-effect import for an
empty specifier list; otherwise the deduplicated mapped names (plus
`GoogleAIBackend` when `GoogleGenerativeAI` was imported) as a
`firebase/ai` import, or no fix when nothing mapped. -/
def computeImportFix (specifiers : List ImportSpec) : Option RuleFix :=
  if specifiers.isEmpty then some (.replaceText "import 'firebase/ai';")
  else
    let needsGoogleAIBackend := specifiers.any importsGoogleGenerativeAI
    let newImports := collectNewImports specifiers []
    let newImports :=
      if needsGoogleAIBackend && !newImports.contains "GoogleAIBackend" then
        newImports ++ ["GoogleAIBackend"]
      else newImports
    if newImports.length > 0 then
      some (.replaceText
        ("import \x7b " ++ String.intercalate ", " newImports ++ " \x7d from 'firebase/ai';"))
    else none

/-- The `ImportDeclaration` callback of `no-google-genai-import`: one
`wrongImport` finding, carrying the computed fix, when the import source
is the string literal `@google/generative-ai`. -/
def noGoogleGenaiImportDecl (source : Node) (specifiers : List ImportSpec) :
    List Finding :=
  if isStringLiteral (some source) && (getStringValue (some source) == some "@google/generative-ai") then
    [⟨Anchor.importDecl source specifiers, "wrongImport", [], computeImportFix specifiers⟩]
  else []

/- ------------------------------------------------------------------
no-streaming-with-schema (src/rules/no-streaming-with-schema.ts).
------------------------------------------------------------------ -/

/-- The three per-file fact sets of `no-streaming-with-schema`. -/
structure StreamingState where
  modelsWithSchema : List String
  classModelProperties : List String
  chatsFromSchemaModels : List String
  deriving Repr

/-- The empty fact store `create` allocates for each file. -/
def initStreamingState : StreamingState := ⟨[], [], []⟩

/-- `hasSchemaConfig`: the config object nests
`generationConfig.responseSchema`, or nests
`generationConfig.responseMimeType` whose static string value is
`application/json` (a mime type alone with any other value does not
count).  The leading `isObjectExpression` guard keeps the
`findNestedProperty` calls on their non-throwing domain, so reading
their `.ok` payload is exact. -/
def hasSchemaConfig (configArg : Node) : Bool :=
  if !(isObjectExpressionB (some configArg)) then false
  else
    let responseSchema :=
      okPayload (findNestedProperty (some configArg) "generationConfig.responseSchema")
    let responseMimeType :=
      okPayload (findNestedProperty (some configArg) "generationConfig.responseMimeType")
    match responseMimeType, responseSchema with
    | some rmt, none =>
        let mimeValue := (propValue rmt).bind (fun v => getStringValue (some v))
        if mimeValue ≠ some "application/json" then false
        else responseSchema.isSome || responseMimeType.isSome
    | _, _ => responseSchema.isSome || responseMimeType.isSome

/-- `getAssignedModelName`: the name the call result is bound to, read
from the parent node (declarator identifier, `this.<p>` assignment, or
class property definition). -/
def getAssignedModelName : ParentCtx → Option String
  | .varDeclarator (.Identifier nm) => some nm
  | .assignExpr (.MemberExpression .ThisExpression (.Identifier p) _) =>
      some ("this." ++ p)
  | .propertyDef (.Identifier nm) => some ("this." ++ nm)
  | _ => none

/-- `getCallerName`: the receiver of a method call, as an identifier name
or `this.<prop>`. -/
def getCallerName : Node → Option String
  | .MemberExpression (.Identifier nm) _ _ => some nm
  | .MemberExpression (.MemberExpression .ThisExpression (.Identifier p) _) _ _ =>
      some ("this." ++ p)
  | _ => none

/-- The callee sub-node of a call or construction expression. -/
def calleeOf : Node → Option Node
  | .CallExpression callee _ => some callee
  | .NewExpression callee _ => some callee
  | _ => none

/-- The argument list of a call expression. -/
def callArgs : Node → List Node
  | .CallExpression _ args => args
  | _ => []

/-- The `CallExpression` callback of `no-streaming-with-schema`: the four
sequential checks of the source (track schema-configured models, track
chats started from them, report streaming calls on schema models, report
streaming sends on tracked chats). -/
def streamingStep (st : StreamingState) (ev : Event) : StreamingState × List Finding :=
  match ev with
  | .callExpr node parent =>
      let calleeName := getCalleeName node
      -- if (calleeName === 'getGenerativeModel') { ... }
      let st1 :=
        if calleeName == some "getGenerativeModel" then
          match (callArgs node).get? 1 with
          | some configArg =>
              if hasSchemaConfig configArg then
                match getAssignedModelName parent with
                | some modelName =>
                    if strStartsWith modelName "this." then
                      { st with classModelProperties :=
                          addStr st.classModelProperties modelName }
                    else
                      { st with modelsWithSchema := addStr st.modelsWithSchema modelName }
                | none => st
              else st
          | none => st
        else st
      -- if (calleeName === 'startChat') { ... }
      let st2 :=
        if calleeName == some "startChat" then
          match (calleeOf node).bind (fun c => getCallerName c) with
          | some callerName =>
              if st1.modelsWithSchema.contains callerName
                 || st1.classModelProperties.contains callerName then
                match parent with
                | .varDeclarator (.Identifier nm) =>
                    { st1 with chatsFromSchemaModels := (addStr st1.chatsFromSchemaModels nm) }
                | .assignExpr (.MemberExpression .ThisExpression (.Identifier p) _) =>
                    { st1 with chatsFromSchemaModels := (addStr st1.chatsFromSchemaModels ("this." ++ p)) }
                | _ => st1
              else st1
          | none => st1
        else st1
      -- if (calleeName === 'generateContentStream') { ... }
      let fs1 : List Finding :=
        if calleeName == some "generateContentStream" then
          match (calleeOf node).bind (fun c => getCallerName c) with
          | some callerName =>
              if st2.modelsWithSchema.contains callerName
                 || st2.classModelProperties.contains callerName then
                [⟨Anchor.node node, "streamingWithSchema", [], none⟩]
              else []
          | none => []
        else []
      -- if (calleeName === 'sendMessageStream') { ... }
      let fs2 : List Finding :=
        if calleeName == some "sendMessageStream" then
          match (calleeOf node).bind (fun c => getCallerName c) with
          | some callerName =>
              if st2.chatsFromSchemaModels.contains callerName then
                [⟨Anchor.node node, "streamingWithSchema", [], none⟩]
              else []
          | none => []
        else []
      (st2, fs1 ++ fs2)
  | _ => (st, [])

/-- Fold the `no-streaming-with-schema` visitor over a file suffix. -/
def streamingFold (st : StreamingState) : List Event → StreamingState × List Finding
  | [] => (st, [])
  | ev :: rest =>
      let (st1, fs1) := streamingStep st ev
      let (st2, fs2) := streamingFold st1 rest
      (st2, fs1 ++ fs2)

/- ------------------------------------------------------------------
require-app-check-production (src/rules/require-app-check-production.ts).
------------------------------------------------------------------ -/

/-- The rule's declared options object: `ignoreFiles: string[]`
(default []). -/
structure AppCheckOptions where
  ignoreFiles : List String
  deriving Repr, DecidableEq

/-- The per-file latches of `require-app-check-production`. -/
structure AppCheckState where
  hasAppCheckImport : Bool
  hasAppCheckInit : Bool
  hasAppCheckHelper : Bool
  hasAIInit : Bool
  aiInitNode : Option Node
  importsFromAIModule : Bool
  deriving Repr

/-- The empty latch state allocated per file. -/
def initAppCheckState : AppCheckState := ⟨false, false, false, false, none, false⟩

/-- `appCheckHelperPatterns`. -/
def appCheckHelperPatterns : List String :=
  ["useAppCheck", "ensureAppCheckReady", "AppCheckProvider",
   "getAppCheckInstance", "isAppCheckReady", "initializeAppCheckLazy",
   "withAppCheck", "appCheckReady"]

/-- `aiModulePatterns`. -/
def aiModulePatterns : List String :=
  ["/ai", "/firebase/ai", "/lib/ai", "/services/ai", "getAIInstance", "aiService"]

/-- The `ImportDeclaration` callback of `require-app-check-production`. -/
def appCheckImportStep (st : AppCheckState) (source : Node)
    (specifiers : List ImportSpec) : AppCheckState :=
  match source with
  | .Literal (.str src) =>
      let st := if src = "firebase/app-check" then { st with hasAppCheckImport := true } else st
      let st :=
        if strIncludes src "useAppCheck" || strIncludes src "AppCheck"
           || strIncludes src "appCheck" then
          { st with hasAppCheckHelper := true }
        else st
      let st :=
        if aiModulePatterns.any (fun pattern => strIncludes src pattern) then
          { st with importsFromAIModule := true }
        else st
      specifiers.foldl
        (fun acc spec =>
          match spec with
          | .importSpecifier (some importedName) _ =>
              let acc :=
                if appCheckHelperPatterns.contains importedName then
                  { acc with hasAppCheckHelper := true }
                else acc
              if importedName = "getAIInstance" || importedName = "getAI"
                 || importedName = "aiInstance" then
                { acc with importsFromAIModule := true }
              else acc
          | _ => acc)
        st
  | _ => st

/-- The `CallExpression` callback of `require-app-check-production`. -/
def appCheckCallStep (st : AppCheckState) (node : Node) : AppCheckState :=
  match getCalleeName node with
  | none => st
  | some calleeName =>
      let st := if calleeName = "initializeAppCheck" then { st with hasAppCheckInit := true } else st
      let st :=
        if appCheckHelperPatterns.contains calleeName then
          { st with hasAppCheckHelper := true }
        else st
      if calleeName = "getAI" then
        if !st.importsFromAIModule then
          { st with hasAIInit := true, aiInitNode := some node }
        else st
      else st

/-- One visitor callback of `require-app-check-production`. -/
def appCheckStep (st : AppCheckState) (ev : Event) : AppCheckState :=
  match ev with
  | .importDecl source specifiers => appCheckImportStep st source specifiers
  | .callExpr node _ => appCheckCallStep st node
  | _ => st

/-- Run `require-app-check-production` over one file.  The rule receives
its configured options object but its visitor never reads it; the
`Program:exit` report fires when a direct `getAI()` call was tracked and
no App Check pattern was seen. -/
def runAppCheck (opts : AppCheckOptions) (events : List Event) : List Finding :=
  let _ := opts
  let st := events.foldl appCheckStep initAppCheckState
  let hasAnyAppCheckPattern :=
    st.hasAppCheckImport || st.hasAppCheckInit || st.hasAppCheckHelper
      || st.importsFromAIModule
  if st.hasAIInit && !hasAnyAppCheckPattern then
    match st.aiInitNode with
    | some n => [⟨Anchor.node n, "missingAppCheck", [], none⟩]
    | none => []
  else []

/- ------------------------------------------------------------------
Shared helper lemmas.
------------------------------------------------------------------ -/

theorem subset_addStr (l : List String) (s : String) : l ⊆ addStr l s := by
  unfold addStr
  split
  · exact List.Subset.refl l
  · exact List.subset_append_left l [s]

theorem mem_addStr_self (l : List String) (s : String) : s ∈ addStr l s := by
  unfold addStr
  split
  · exact List.mem_of_elem_eq_true (by assumption)
  · exact List.mem_append_right l (List.mem_singleton.mpr rfl)

theorem aiImportStep_fields (specs : List ImportSpec) (st : AiRuleState) :
    (aiImportStep st specs).aiVariables = st.aiVariables ∧
    (aiImportStep st specs).classAiProperties = st.classAiProperties ∧
    (aiImportStep st specs).aiWrapperFunctions = st.aiWrapperFunctions ∧
    st.importedAIWrappers ⊆ (aiImportStep st specs).importedAIWrappers := by
  induction specs generalizing st with
  | nil => exact ⟨rfl, rfl, rfl, List.Subset.refl _⟩
  | cons spec rest ih =>
      show (aiImportStep (_ : AiRuleState) rest).aiVariables = _ ∧ _
      cases spec with
      | importSpecifier imported l =>
          by_cases h : matchesAIWrapperPattern l = true
          · have := ih { st with importedAIWrappers := addStr st.importedAIWrappers l }
            simp only [aiImportStep, List.foldl_cons, h, if_true] at *
            exact ⟨this.1, this.2.1, this.2.2.1,
              List.Subset.trans (subset_addStr _ _) this.2.2.2⟩
          · have := ih st
            simp only [aiImportStep, List.foldl_cons, h, if_false] at *
            simpa using this
      | importDefaultSpecifier l =>
          by_cases h : matchesAIWrapperPattern l = true
          · have := ih { st with importedAIWrappers := addStr st.importedAIWrappers l }
            simp only [aiImportStep, List.foldl_cons, h, if_true] at *
            exact ⟨this.1, this.2.1, this.2.2.1,
              List.Subset.trans (subset_addStr _ _) this.2.2.2⟩
          · have := ih st
            simp only [aiImportStep, List.foldl_cons, h, if_false] at *
            simpa using this
      | importNamespaceSpecifier l =>
          have := ih st
          simp only [aiImportStep, List.foldl_cons] at *
          simpa using this

theorem aiStep_subset (st : AiRuleState) (ev : Event) :
    st.aiVariables ⊆ (aiStep st ev).1.aiVariables ∧
    st.classAiProperties ⊆ (aiStep st ev).1.classAiProperties ∧
    st.aiWrapperFunctions ⊆ (aiStep st ev).1.aiWrapperFunctions ∧
    st.importedAIWrappers ⊆ (aiStep st ev).1.importedAIWrappers := by
  cases ev <;> unfold aiStep <;>
    first
    | exact ⟨List.Subset.refl _, List.Subset.refl _, List.Subset.refl _, List.Subset.refl _⟩
    | · rename_i src specs
        have h := aiImportStep_fields specs st
        exact ⟨h.1 ▸ List.Subset.refl _, h.2.1 ▸ List.Subset.refl _,
          h.2.2.1 ▸ List.Subset.refl _, h.2.2.2⟩
    | · dsimp only
        repeat' split
        all_goals
          exact ⟨by simp [subset_addStr], by simp [subset_addStr],
            by simp [subset_addStr], by simp [subset_addStr]⟩

theorem aiFold_subset (evs : List Event) (st : AiRuleState) :
    st.aiVariables ⊆ (aiFold st evs).1.aiVariables ∧
    st.classAiProperties ⊆ (aiFold st evs).1.classAiProperties ∧
    st.aiWrapperFunctions ⊆ (aiFold st evs).1.aiWrapperFunctions ∧
    st.importedAIWrappers ⊆ (aiFold st evs).1.importedAIWrappers := by
  induction evs generalizing st with
  | nil => exact ⟨List.Subset.refl _, List.Subset.refl _, List.Subset.refl _, List.Subset.refl _⟩
  | cons ev rest ih =>
      have h1 := aiStep_subset st ev
      have h2 := ih (aiStep st ev).1
      refine ⟨?_, ?_, ?_, ?_⟩ <;>
        simp only [aiFold] <;>
        first
        | exact List.Subset.trans h1.1 h2.1
        | exact List.Subset.trans h1.2.1 h2.2.1
        | exact List.Subset.trans h1.2.2.1 h2.2.2.1
        | exact List.Subset.trans h1.2.2.2 h2.2.2.2

theorem streamingStep_subset (st : StreamingState) (ev : Event) :
    st.modelsWithSchema ⊆ (streamingStep st ev).1.modelsWithSchema ∧
    st.classModelProperties ⊆ (streamingStep st ev).1.classModelProperties ∧
    st.chatsFromSchemaModels ⊆ (streamingStep st ev).1.chatsFromSchemaModels := by
  cases ev <;> unfold streamingStep <;>
    first
    | exact ⟨List.Subset.refl _, List.Subset.refl _, List.Subset.refl _⟩
    | · dsimp only
        repeat' split
        all_goals
          refine ⟨?_, ?_, ?_⟩ <;> simp [subset_addStr]

theorem streamingFold_subset (evs : List Event) (st : StreamingState) :
    st.modelsWithSchema ⊆ (streamingFold st evs).1.modelsWithSchema ∧
    st.classModelProperties ⊆ (streamingFold st evs).1.classModelProperties ∧
    st.chatsFromSchemaModels ⊆ (streamingFold st evs).1.chatsFromSchemaModels := by
  induction evs generalizing st with
  | nil => exact ⟨List.Subset.refl _, List.Subset.refl _, List.Subset.refl _⟩
  | cons ev rest ih =>
      have h1 := streamingStep_subset st ev
      have h2 := ih (streamingStep st ev).1
      refine ⟨?_, ?_, ?_⟩ <;>
        simp only [streamingFold] <;>
        first
        | exact List.Subset.trans h1.1 h2.1
        | exact List.Subset.trans h1.2.1 h2.2.1
        | exact List.Subset.trans h1.2.2 h2.2.2

theorem groundingStep_enabled (st : GroundingState) (ev : Event) :
    (groundingStep st ev).groundingEnabled =
      (st.groundingEnabled || enablesGrounding ev) := by
  unfold groundingStep enablesGrounding
  cases ev <;> dsimp only <;> (try simp) <;>
    (repeat' split) <;> simp_all

theorem groundingStep_accessed (st : GroundingState) (ev : Event) :
    (groundingStep st ev).searchEntryPointAccessed =
      (st.searchEntryPointAccessed || marksSearchEntryPoint ev) := by
  unfold groundingStep marksSearchEntryPoint
  cases ev <;> dsimp only <;> (try simp) <;>
    (repeat' split) <;> simp_all

theorem groundingFold_enabled (evs : List Event) (st : GroundingState) :
    (List.foldl groundingStep st evs).groundingEnabled =
      (st.groundingEnabled || evs.any enablesGrounding) := by
  induction evs generalizing st with
  | nil => simp
  | cons ev rest ih =>
      simp only [List.foldl_cons, List.any_cons, ih, groundingStep_enabled,
        Bool.or_assoc]

theorem groundingFold_accessed (evs : List Event) (st : GroundingState) :
    (List.foldl groundingStep st evs).searchEntryPointAccessed =
      (st.searchEntryPointAccessed || evs.any marksSearchEntryPoint) := by
  induction evs generalizing st with
  | nil => simp
  | cons ev rest ih =>
      simp only [List.foldl_cons, List.any_cons, ih, groundingStep_accessed,
        Bool.or_assoc]

theorem runGrounding_eq (evs : List Event) :
    runGrounding evs =
      (if evs.any enablesGrounding && !(evs.any marksSearchEntryPoint) then
        [⟨Anchor.program, "missingSearchEntryPoint", [], none⟩]
      else []) := by
  unfold runGrounding
  dsimp only
  rw [groundingFold_enabled, groundingFold_accessed]
  simp

/-- C3: the `require-grounding-compliance` end-of-file deferred check
reports exactly one finding, anchored at the Program node, if and only if
some `googleSearch` identifier-keyed property occurs in the file and no
`searchEntryPoint` identifier or `'searchEntryPoint'` literal occurs —
regardless of the order of the occurrences (the run is invariant under
permutation of the traversal events). -/
theorem claim_C3 (events : List Event) :
    ((runGrounding events).length ≤ 1) ∧
    (runGrounding events = [⟨Anchor.program, "missingSearchEntryPoint", [], none⟩]
      ↔ ((∃ ev ∈ events, enablesGrounding ev = true) ∧
          ¬ ∃ ev ∈ events, marksSearchEntryPoint ev = true)) ∧
    (∀ events₂, events.Perm events₂ → runGrounding events = runGrounding events₂) := by
  refine ⟨?_, ?_, ?_⟩
  · rw [runGrounding_eq]; split <;> simp
  · rw [runGrounding_eq]
    constructor
    · intro h
      by_cases hc : (events.any enablesGrounding && !(events.any marksSearchEntryPoint)) = true
      · rw [Bool.and_eq_true, Bool.not_eq_true', List.any_eq_false] at hc
        refine ⟨by simpa [List.any_eq_true] using hc.1, ?_⟩
        rintro ⟨ev, hm, hev⟩
        exact absurd hev (by simpa using hc.2 ev hm)
      · rw [if_neg hc] at h
        exact absurd h (by simp)
    · rintro ⟨⟨ev, hm, hev⟩, hno⟩
      have h1 : events.any enablesGrounding = true :=
        List.any_eq_true.mpr ⟨ev, hm, hev⟩
      have h2 : events.any marksSearchEntryPoint = false := by
        rw [List.any_eq_false]
        intro e he
        intro hcon
        exact hno ⟨e, he, hcon⟩
      rw [h1, h2]
      rfl
  · intro events₂ hp
    rw [runGrounding_eq, runGrounding_eq]
    have e1 : events.any enablesGrounding = events₂.any enablesGrounding := by
      cases h1 : events₂.any enablesGrounding
      · rw [List.any_eq_false] at *
        intro e he
        exact h1 e (hp.mem_iff.mp he)
      · rw [List.any_eq_true] at *
        obtain ⟨e, he, hev⟩ := h1
        exact ⟨e, hp.mem_iff.mpr he, hev⟩
    have e2 : events.any marksSearchEntryPoint = events₂.any marksSearchEntryPoint := by
      cases h1 : events₂.any marksSearchEntryPoint
      · rw [List.any_eq_false] at *
        intro e he
        exact h1 e (hp.mem_iff.mp he)
      · rw [List.any_eq_true] at *
        obtain ⟨e, he, hev⟩ := h1
        exact ⟨e, hp.mem_iff.mpr he, hev⟩
    rw [e1, e2]

/-- C3 witness: on a concrete file containing only a `googleSearch`
property event, the deferred check fires (via the iff of `claim_C3`), and
swapping the two events of a two-event file leaves the outcome unchanged
(via the permutation clause of `claim_C3`). -/
theorem claim_C3_witness :
    runGrounding [Event.propertyVisit
        (Node.Property (Node.Identifier "googleSearch") (Node.ObjectExpression []) "init" false)] =
      [⟨Anchor.program, "missingSearchEntryPoint", [], none⟩] ∧
    runGrounding [Event.identifierVisit "searchEntryPoint",
        Event.propertyVisit
          (Node.Property (Node.Identifier "googleSearch") (Node.ObjectExpression []) "init" false)] =
      runGrounding [Event.propertyVisit
          (Node.Property (Node.Identifier "googleSearch") (Node.ObjectExpression []) "init" false),
        Event.identifierVisit "searchEntryPoint"] := by
  constructor
  · exact (claim_C3 _).2.1.mpr
      ⟨⟨_, List.mem_singleton.mpr rfl, rfl⟩, by rintro ⟨e, he, hm⟩; simp at he; subst he; simp [marksSearchEntryPoint] at hm⟩
  · exact (claim_C3 _).2.2 _ (List.Perm.swap _ _ _)

/- ------------------------------------------------------------------
Per-file isolation (the host analyzes files in sequence; each rule's
`create` allocates its fact store / latches afresh per file).
------------------------------------------------------------------ -/

/-- The host analyzing a sequence of files with `require-ai-before-model`:
each per-file invocation starts from the freshly allocated
`initAiRuleState` (the sets are locals of `create`, never
module-level). -/
def analyzeFilesAiBeforeModel (files : List (List Event)) : List (List Finding) :=
  files.map runAiBeforeModel

/-- The host analyzing a sequence of files with
`require-grounding-compliance`: the two latches are locals of `create`
and start at false for every file. -/
def analyzeFilesGrounding (files : List (List Event)) : List (List Finding) :=
  files.map runGrounding

/-- C2: per-file state isolation.  Analyzing file A then file B yields
for B exactly the findings of analyzing B alone, for both fact-store
rules (`require-ai-before-model`) and latch rules
(`require-grounding-compliance`): the per-file state is allocated fresh
inside each rule invocation, so B's findings cannot depend on A. -/
theorem claim_C2 (A B : List Event) :
    analyzeFilesAiBeforeModel [A, B] = [runAiBeforeModel A, runAiBeforeModel B] ∧
    analyzeFilesGrounding [A, B] = [runGrounding A, runGrounding B] ∧
    (analyzeFilesAiBeforeModel [A, B]).getLast? = (analyzeFilesAiBeforeModel [B]).getLast? ∧
    (analyzeFilesGrounding [A, B]).getLast? = (analyzeFilesGrounding [B]).getLast? := by
  refine ⟨rfl, rfl, ?_, ?_⟩ <;> rfl

/-- C10: the `require-app-check-production` visitor never reads the
configured options object, so for any two values of the `ignoreFiles`
option the findings of any file are identical. -/
theorem claim_C10 (opts₁ opts₂ : AppCheckOptions) (events : List Event) :
    runAppCheck opts₁ events = runAppCheck opts₂ events := rfl

/- ------------------------------------------------------------------
C5: getCalleeName coverage.
------------------------------------------------------------------ -/

/-- The callee shapes `getCalleeName` resolves: a plain identifier, or a
member expression whose property sub-node is an identifier. -/
def calleeShapeTracked : Node → Bool
  | .Identifier _ => true
  | .MemberExpression _ (.Identifier _) _ => true
  | _ => false

/-- Is the node a call or construction expression? -/
def isCallOrNew : Node → Bool
  | .CallExpression _ _ => true
  | .NewExpression _ _ => true
  | _ => false

/-- C5 counterexample: the claim states that `getCalleeName` returns none
for computed member access such as `a[b](...)`.  In ESTree `a[b]` is a
member expression with `computed: true` whose `property` is the
identifier `b`; the source never checks the `computed` flag, so
`getCalleeName` returns "b" here, not none. -/
theorem claim_C5_counterexample :
    getCalleeName (Node.CallExpression
      (Node.MemberExpression (Node.Identifier "a") (Node.Identifier "b") true) []) = some "b" := rfl

/-- C5 amended: `getCalleeName` returns the identifier name, or the
trailing member name whenever the property sub-node is an identifier —
regardless of the `computed` flag (so `a[b](...)` yields "b" while
`a["b"](...)` yields none) — and none for every other callee shape and
for every non-call, non-construction node. -/
theorem claim_C5 (o : Node) (nm : String) (computed : Bool) (args : List Node) :
    (getCalleeName (Node.CallExpression (Node.Identifier nm) args) = some nm) ∧
    (getCalleeName (Node.NewExpression (Node.Identifier nm) args) = some nm) ∧
    (getCalleeName (Node.CallExpression
        (Node.MemberExpression o (Node.Identifier nm) computed) args) = some nm) ∧
    (getCalleeName (Node.NewExpression
        (Node.MemberExpression o (Node.Identifier nm) computed) args) = some nm) ∧
    (∀ c : Node, calleeShapeTracked c = false →
        getCalleeName (Node.CallExpression c args) = none ∧
        getCalleeName (Node.NewExpression c args) = none) ∧
    (∀ n : Node, isCallOrNew n = false → getCalleeName n = none) := by
  refine ⟨rfl, rfl, rfl, rfl, ?_, ?_⟩
  · intro c hc
    constructor <;>
      · simp only [getCalleeName]
        cases c <;> simp_all [calleeShapeTracked, calleeNameOf]
        rename_i obj prop comp
        cases prop <;> simp_all
  · intro n hn
    cases n <;> simp_all [isCallOrNew, getCalleeName]

/-- C5 witness: the untracked-shape clauses of `claim_C5` applied at a
literal callee (`null(...)`) and at a bare identifier node. -/
theorem claim_C5_witness :
    (calleeShapeTracked (Node.Literal LitValue.nul) = false ∧
      getCalleeName (Node.CallExpression (Node.Literal LitValue.nul) []) = none) ∧
    (isCallOrNew (Node.Identifier "x") = false ∧
      getCalleeName (Node.Identifier "x") = none) :=
  ⟨⟨rfl, ((claim_C5 (Node.Identifier "a") "b" false []).2.2.2.2.1
      (Node.Literal LitValue.nul) rfl).1⟩,
   ⟨rfl, (claim_C5 (Node.Identifier "a") "b" false []).2.2.2.2.2
      (Node.Identifier "x") rfl⟩⟩

/- ------------------------------------------------------------------
C6: findProperty matching.
------------------------------------------------------------------ -/

/-- C6 counterexample: the claim states `findProperty` never matches a
getter.  A getter is a `Property` with `kind: "get"`; `getPropertyName`
never consults `kind` (nor `computed`), so a getter named `x` IS
returned for the lookup of "x". -/
theorem claim_C6_counterexample :
    findProperty (some (Node.ObjectExpression
        [Node.Property (Node.Identifier "x") (Node.Literal LitValue.nul) "get" false])) "x" =
      .ok (some (Node.Property (Node.Identifier "x") (Node.Literal LitValue.nul) "get" false)) := rfl

/-- C6 amended: on its object-literal domain `findProperty` returns the
first property, in source order, whose identifier or string-literal key
equals the name; spread elements are skipped, but getter/setter
properties and computed identifier keys are matched like any other (the
property `kind` and `computed` flag are never consulted); with no
matching property it returns none.  The clauses: empty object; a spread
head is skipped; an identifier-keyed head of any kind/computed flag
matches; a string-literal-keyed head matches; a non-matching property
head is skipped; and any returned property is a member with the
looked-up name. -/
theorem claim_C6 (name : String) (props : List Node) (v : Node) (kind : String)
    (comp : Bool) (arg : Node) :
    (findProperty (some (Node.ObjectExpression [])) name = .ok none) ∧
    (findProperty (some (Node.ObjectExpression (Node.SpreadElement arg :: props))) name =
      findProperty (some (Node.ObjectExpression props)) name) ∧
    (findProperty (some (Node.ObjectExpression
        (Node.Property (Node.Identifier name) v kind comp :: props))) name =
      .ok (some (Node.Property (Node.Identifier name) v kind comp))) ∧
    (findProperty (some (Node.ObjectExpression
        (Node.Property (Node.Literal (LitValue.str name)) v kind comp :: props))) name =
      .ok (some (Node.Property (Node.Literal (LitValue.str name)) v kind comp))) ∧
    (∀ p : Node, isPropertyB (some p) = true → getPropertyName p ≠ some name →
      findProperty (some (Node.ObjectExpression (p :: props))) name =
        findProperty (some (Node.ObjectExpression props)) name) ∧
    (∀ q : Node, findProperty (some (Node.ObjectExpression props)) name = .ok (some q) →
      isPropertyB (some q) = true ∧ getPropertyName q = some name ∧ q ∈ props) := by
  refine ⟨rfl, ?_, ?_, ?_, ?_, ?_⟩
  · simp [findProperty, List.find?_cons, isPropertyB]
  · simp [findProperty, List.find?_cons, isPropertyB, getPropertyName]
  · simp [findProperty, List.find?_cons, isPropertyB, getPropertyName]
  · intro p hp hn
    simp only [findProperty]
    rw [List.find?_cons_of_neg]
    simp [hp, hn]
  · intro q hq
    simp only [findProperty, Except.ok.injEq] at hq
    have h1 := List.find?_some hq
    have h2 := List.mem_of_find?_eq_some hq
    rw [Bool.and_eq_true, beq_iff_eq] at h1
    exact ⟨h1.1, h1.2, h2⟩

/-- C6 witness: the skip clause of `claim_C6` applied to a concrete
non-matching property head, and the soundness clause applied to a
concrete singleton object. -/
theorem claim_C6_witness :
    (isPropertyB (some (Node.Property (Node.Identifier "y") (Node.Literal LitValue.nul) "init" false)) = true ∧
     getPropertyName (Node.Property (Node.Identifier "y") (Node.Literal LitValue.nul) "init" false) ≠ some "x" ∧
     findProperty (some (Node.ObjectExpression
        [Node.Property (Node.Identifier "y") (Node.Literal LitValue.nul) "init" false,
         Node.Property (Node.Identifier "x") (Node.Literal LitValue.nul) "init" false])) "x" =
       findProperty (some (Node.ObjectExpression
        [Node.Property (Node.Identifier "x") (Node.Literal LitValue.nul) "init" false])) "x") ∧
    (isPropertyB (some (Node.Property (Node.Identifier "x") (Node.Literal LitValue.nul) "init" false)) = true ∧
     getPropertyName (Node.Property (Node.Identifier "x") (Node.Literal LitValue.nul) "init" false) = some "x" ∧
     Node.Property (Node.Identifier "x") (Node.Literal LitValue.nul) "init" false ∈
       [Node.Property (Node.Identifier "x") (Node.Literal LitValue.nul) "init" false]) :=
  ⟨⟨rfl, by simp [getPropertyName],
    (claim_C6 "x" [Node.Property (Node.Identifier "x") (Node.Literal LitValue.nul) "init" false]
        (Node.Literal LitValue.nul) "init" false (Node.Identifier "z")).2.2.2.2.1
      (Node.Property (Node.Identifier "y") (Node.Literal LitValue.nul) "init" false)
      rfl (by simp [getPropertyName])⟩,
   (claim_C6 "x" [Node.Property (Node.Identifier "x") (Node.Literal LitValue.nul) "init" false]
        (Node.Literal LitValue.nul) "init" false (Node.Identifier "z")).2.2.2.2.2
      (Node.Property (Node.Identifier "x") (Node.Literal LitValue.nul) "init" false) rfl⟩

/- ------------------------------------------------------------------
C9: totality / not-matched defaults of the node predicates, and the
TypeError path of findProperty / findNestedProperty.
------------------------------------------------------------------ -/

theorem findProperty_of_not_object (n : Node)
    (h : isObjectExpressionB (some n) = false) (name : String) :
    findProperty (some n) name = .error "TypeError" := by
  cases n <;> simp_all [findProperty, isObjectExpressionB]

theorem splitOnDot_ne_nil (s : String) : splitOnDot s ≠ [] := by
  unfold splitOnDot
  rw [Ne, List.map_eq_nil_iff]
  cases h : s.toList with
  | nil => simp [splitCharList]
  | cons c cs =>
      unfold splitCharList
      cases splitCharList '.' cs <;> dsimp only <;>
        first
        | simp
        | (split <;> simp)

theorem findNestedPropertyParts_of_not_object (n : Node)
    (h : isObjectExpressionB (some n) = false) (parts : List String)
    (hp : parts ≠ []) :
    findNestedPropertyParts (some n) parts = .error "TypeError" := by
  cases parts with
  | nil => exact absurd rfl hp
  | cons p rest =>
      simp only [findNestedPropertyParts, findProperty_of_not_object n h]

theorem findNestedPropertyParts_ok_on_object (parts : List String)
    (props : List Node) :
    ∃ r, findNestedPropertyParts (some (Node.ObjectExpression props)) parts = .ok r := by
  induction parts generalizing props with
  | nil => exact ⟨none, rfl⟩
  | cons part rest ih =>
      simp only [findNestedPropertyParts, findProperty]
      cases hf : (props.find? (fun p => isPropertyB (some p) && (getPropertyName p == some part))) with
      | none => exact ⟨none, rfl⟩
      | some prop =>
          dsimp only
          cases rest with
          | nil => exact ⟨some prop, rfl⟩
          | cons q rest₂ =>
              dsimp only
              cases hv : propValue prop with
              | none => exact ⟨none, rfl⟩
              | some v =>
                  dsimp only
                  cases v <;>
                    simp only [isObjectExpressionB, if_true, if_false, ite_true, ite_false] <;>
                    first
                    | exact ⟨none, rfl⟩
                    | exact ih _

/-- C9 counterexample: the claim states `findNestedProperty` (and the
other predicates) return a defined "not matched" result on every node
shape, including null and undefined, and never raise.  The source
`findProperty` evaluates `obj.properties.find(...)` unconditionally, so
on an identifier node (no `properties` array) and on null/undefined the
call throws a TypeError instead of returning none. -/
theorem claim_C9_counterexample :
    findNestedProperty (some (Node.Identifier "y")) "generationConfig.responseSchema" =
      .error "TypeError" ∧
    findProperty none "x" = .error "TypeError" ∧
    findNestedProperty none "a.b" = .error "TypeError" := ⟨rfl, rfl, rfl⟩

/-- C9 amended: the predicates with nullable signatures (isStringLiteral,
isTemplateLiteral, getStringValue, getNumberValue, the shape tests)
return the "not matched" result — false or none — on null/undefined and
on every node shape they do not handle, and never raise (the converse
clauses pin the handled shapes, and the stand-in for unrecognized node
kinds gets the default).  `findProperty` and `findNestedProperty`,
whose signatures restrict the input to object literals, are total only
there: on their declared domain they always return `.ok` without
raising, but called dynamically on null/undefined or any non-object
node the unconditional `obj.properties.find` access throws a TypeError
(`.error`) rather than returning a not-matched result. -/
theorem claim_C9 :
    (isStringLiteral none = false ∧ isTemplateLiteral none = false ∧
     getStringValue none = none ∧ getNumberValue none = none ∧
     isIdentifierAny none = false ∧ isCallExpressionB none = false ∧
     isMemberExpressionB none = false ∧ isObjectExpressionB none = false ∧
     isPropertyB none = false) ∧
    (∀ n : Node, isStringLiteral (some n) = true →
       ∃ s, n = Node.Literal (LitValue.str s)) ∧
    (∀ n : Node, getStringValue (some n) ≠ none →
       (∃ s, n = Node.Literal (LitValue.str s)) ∨
       ∃ q, n = Node.TemplateLiteral [q] []) ∧
    (∀ n : Node, getNumberValue (some n) ≠ none →
       (∃ i, n = Node.Literal (LitValue.num i)) ∨
       ∃ i, n = Node.UnaryExpression "-" (Node.Literal (LitValue.num i))) ∧
    (∀ (tag : String), (isStringLiteral (some (Node.OtherNode tag)) = false ∧
       getStringValue (some (Node.OtherNode tag)) = none ∧
       getNumberValue (some (Node.OtherNode tag)) = none ∧
       getPropertyName (Node.OtherNode tag) = none)) ∧
    (∀ name, findProperty none name = .error "TypeError") ∧
    (∀ (n : Node) (name : String), isObjectExpressionB (some n) = false →
       findProperty (some n) name = .error "TypeError") ∧
    (∀ (n : Node) (path : String), isObjectExpressionB (some n) = false →
       findNestedProperty (some n) path = .error "TypeError") ∧
    (∀ (props : List Node) (path : String),
       ∃ r, findNestedProperty (some (Node.ObjectExpression props)) path = .ok r) := by
  refine ⟨⟨rfl, rfl, rfl, rfl, rfl, rfl, rfl, rfl, rfl⟩, ?_, ?_, ?_,
    fun tag => ⟨rfl, rfl, rfl, rfl⟩, fun name => rfl, ?_, ?_, ?_⟩
  · intro n h
    cases n <;> simp_all [isStringLiteral]
    rename_i v
    cases v <;> simp_all
  · intro n h
    cases n <;> simp only [getStringValue] at h <;> try simp_all
    · rename_i v
      cases v <;> simp_all
    · split at h <;> simp_all
  · intro n h
    cases n <;> simp only [getNumberValue] at h <;> try simp_all
    · rename_i v
      cases v <;> simp_all
    · split at h <;> simp_all
  · intro n name h
    exact findProperty_of_not_object n h name
  · intro n path h
    exact findNestedPropertyParts_of_not_object n h (splitOnDot path)
      (splitOnDot_ne_nil path)
  · intro props path
    exact findNestedPropertyParts_ok_on_object (splitOnDot path) props

/-- C9 witness: `claim_C9` applied at concrete inputs — a string literal
pins the `isStringLiteral` shape, an identifier root makes
`findNestedProperty` throw, and an object-literal root makes it return
`.ok` without raising. -/
theorem claim_C9_witness :
    (∃ s, Node.Literal (LitValue.str "hi") = Node.Literal (LitValue.str s)) ∧
    findNestedProperty (some (Node.Identifier "y")) "generationConfig.responseSchema" =
      .error "TypeError" ∧
    (∃ r, findNestedProperty
        (some (Node.ObjectExpression
          [Node.Property (Node.Identifier "generationConfig") (Node.ObjectExpression []) "init" false]))
        "generationConfig.responseSchema" = .ok r) :=
  ⟨(claim_C9.2.1 (Node.Literal (LitValue.str "hi")) rfl),
   (claim_C9.2.2.2.2.2.2.2.1 (Node.Identifier "y") "generationConfig.responseSchema" rfl),
   (claim_C9.2.2.2.2.2.2.2.2
      [Node.Property (Node.Identifier "generationConfig") (Node.ObjectExpression []) "init" false]
      "generationConfig.responseSchema")⟩

/- ------------------------------------------------------------------
C4: no-verbose-prompts length threshold.
------------------------------------------------------------------ -/

/-- C4 counterexample: the claim states the finding's interpolated data
includes both the measured length and the threshold.  At threshold 3
with the 4-character prompt "aaaa", the rule's only interpolation entry
is the length ("4"); no entry carries the threshold (the message
template interpolates `length` alone). -/
theorem claim_C4_counterexample :
    noVerbosePromptsCall 3
        (Node.CallExpression (Node.Identifier "generateContent")
          [Node.Literal (LitValue.str "aaaa")]) =
      [⟨Anchor.node (Node.Literal (LitValue.str "aaaa")), "verbosePrompt",
        [("length", "4")], none⟩] := rfl

/-- C4 amended: for an AI-method call whose first argument is a string
literal longer than the configured `maxPromptLength`, exactly one
`verbosePrompt` finding is emitted, anchored at the argument, whose
interpolated data carries the measured length only (not the threshold);
a string at or under the threshold that contains no verbose phrase
yields zero findings. -/
theorem claim_C4 (maxLen : Nat) (m s : String) (rest : List Node) :
    (m ∈ aiMethods → s.length > maxLen →
      noVerbosePromptsCall maxLen
          (Node.CallExpression (Node.Identifier m) (Node.Literal (LitValue.str s) :: rest)) =
        [⟨Anchor.node (Node.Literal (LitValue.str s)), "verbosePrompt",
          [("length", toString s.length)], none⟩]) ∧
    (m ∈ aiMethods → s.length ≤ maxLen →
      (∀ phrase ∈ verbosePhrases, strIncludes (strToLower s) phrase = false) →
      noVerbosePromptsCall maxLen
          (Node.CallExpression (Node.Identifier m) (Node.Literal (LitValue.str s) :: rest)) =
        []) := by
  constructor
  · intro hm hlen
    have hmc : aiMethods.contains m = true := List.elem_iff.mpr hm
    have hs : ¬ s = "" := by
      intro he
      subst he
      exact absurd hlen (by simp)
    simp only [noVerbosePromptsCall, getCalleeName, calleeNameOf, hmc,
      Bool.not_true, getStringValue, hs, if_false, Bool.false_eq_true,
      if_neg, ite_false]
    simp only [checkPrompt, if_pos hlen]
  · intro hm hlen hph
    have hmc : aiMethods.contains m = true := List.elem_iff.mpr hm
    have hcp : checkPrompt maxLen (Node.Literal (LitValue.str s)) s = [] := by
      simp only [checkPrompt]
      rw [if_neg (by omega)]
      rw [List.find?_eq_none.mpr (fun p hp => by rw [hph p hp]; simp)]
    by_cases hs : s = ""
    · subst hs
      simp [noVerbosePromptsCall, getCalleeName, calleeNameOf, hmc, getStringValue]
    · simp only [noVerbosePromptsCall, getCalleeName, calleeNameOf, hmc,
        Bool.not_true, getStringValue, hs, Bool.false_eq_true, if_neg,
        ite_false]
      exact hcp

/-- C4 witness: `claim_C4` applied at a 4-character prompt over
threshold 3 (one finding, data = length only) and at a short phrase-free
prompt under the default threshold 1000 (zero findings). -/
theorem claim_C4_witness :
    noVerbosePromptsCall 3
        (Node.CallExpression (Node.Identifier "generateContent")
          [Node.Literal (LitValue.str "abcd")]) =
      [⟨Anchor.node (Node.Literal (LitValue.str "abcd")), "verbosePrompt",
        [("length", "4")], none⟩] ∧
    noVerbosePromptsCall 1000
        (Node.CallExpression (Node.Identifier "sendMessage")
          [Node.Literal (LitValue.str "Summarize.")]) = [] :=
  ⟨(claim_C4 3 "generateContent" "abcd" []).1 (by decide) (by decide),
   (claim_C4 1000 "sendMessage" "Summarize." []).2 (by decide) (by decide) (by decide)⟩

/- ------------------------------------------------------------------
C8: no-google-genai-import findings and fixes.
------------------------------------------------------------------ -/

theorem collectNewImports_acc_ne_nil (l : List ImportSpec) (acc : List String)
    (h : acc ≠ []) : collectNewImports l acc ≠ [] := by
  induction l generalizing acc with
  | nil => exact h
  | cons spec rest ih =>
      unfold collectNewImports
      cases hm : mappedNameOf spec with
      | none => exact ih acc h
      | some nm =>
          dsimp only
          split
          · exact ih acc h
          · exact ih (acc ++ [nm]) (by simp)

theorem collectNewImports_ne_nil_of_mapped (l : List ImportSpec) (acc : List String)
    (h : ∃ sp ∈ l, (mappedNameOf sp).isSome) : collectNewImports l acc ≠ [] := by
  induction l generalizing acc with
  | nil => simp at h
  | cons spec rest ih =>
      unfold collectNewImports
      cases hm : mappedNameOf spec with
      | none =>
          apply ih
          obtain ⟨sp, hsp, hsome⟩ := h
          rcases List.mem_cons.mp hsp with heq | hmem
          · subst heq; rw [hm] at hsome; simp at hsome
          · exact ⟨sp, hmem, hsome⟩
      | some nm =>
          dsimp only
          split
          · rename_i hc
            exact collectNewImports_acc_ne_nil rest acc
              (by intro he; subst he; simp at hc)
          · exact collectNewImports_acc_ne_nil rest (acc ++ [nm]) (by simp)

theorem collectNewImports_all_none (l : List ImportSpec) (acc : List String)
    (h : ∀ sp ∈ l, mappedNameOf sp = none) : collectNewImports l acc = acc := by
  induction l generalizing acc with
  | nil => rfl
  | cons spec rest ih =>
      unfold collectNewImports
      rw [h spec (List.mem_cons_self spec rest)]
      exact ih acc (fun sp hs => h sp (List.mem_cons_of_mem spec hs))

theorem any_googleGen_eq_false (l : List ImportSpec)
    (h : ∀ sp ∈ l, mappedNameOf sp = none) :
    l.any importsGoogleGenerativeAI = false := by
  rw [List.any_eq_false]
  intro sp hsp
  intro hcon
  have := h sp hsp
  cases sp with
  | importSpecifier imported localName =>
      cases imported with
      | none => simp [importsGoogleGenerativeAI] at hcon
      | some nm =>
          simp only [importsGoogleGenerativeAI] at hcon
          split at hcon
          · rename_i heq
            injection heq with h1
            injection h1 with h2
            subst h2
            simp [mappedNameOf, importMapping] at this
          · simp at hcon
  | importDefaultSpecifier localName => simp [importsGoogleGenerativeAI] at hcon
  | importNamespaceSpecifier localName => simp [importsGoogleGenerativeAI] at hcon

/-- C8: every import declaration whose source is the string literal
`@google/generative-ai` yields exactly one `wrongImport` finding, the
rule's category (`meta.type`) is "problem", the finding carries the
computed fix, when none of the imported symbols is in the static rename
table the rule offers no fix (reports without guessing), and when some
symbol is in the table the fix replaces the statement with a
`firebase/ai` import of the mapped names. -/
theorem claim_C8 (specifiers : List ImportSpec) :
    (noGoogleGenaiImportDecl (Node.Literal (LitValue.str "@google/generative-ai")) specifiers =
      [⟨Anchor.importDecl (Node.Literal (LitValue.str "@google/generative-ai")) specifiers,
        "wrongImport", [], computeImportFix specifiers⟩]) ∧
    (noGoogleGenaiImportMetaType = "problem") ∧
    (specifiers ≠ [] → (∀ sp ∈ specifiers, mappedNameOf sp = none) →
      computeImportFix specifiers = none) ∧
    ((∃ sp ∈ specifiers, (mappedNameOf sp).isSome) →
      ∃ names, names ≠ [] ∧
        computeImportFix specifiers =
          some (RuleFix.replaceText
            ("import \x7b " ++ String.intercalate ", " names ++ " \x7d from 'firebase/ai';"))) := by
  refine ⟨rfl, rfl, ?_, ?_⟩
  · intro hne hall
    unfold computeImportFix
    rw [if_neg (by simpa using hne)]
    dsimp only
    rw [any_googleGen_eq_false specifiers hall,
      collectNewImports_all_none specifiers [] hall]
    simp
  · intro hex
    unfold computeImportFix
    rw [if_neg (by rcases hex with ⟨sp, hsp, _⟩; rcases specifiers with _ | _ <;> simp_all)]
    dsimp only
    set base := collectNewImports specifiers [] with hbase
    have hb : base ≠ [] := collectNewImports_ne_nil_of_mapped specifiers [] hex
    by_cases hg : (specifiers.any importsGoogleGenerativeAI && !base.contains "GoogleAIBackend") = true
    · rw [if_pos hg]
      have hne : base ++ ["GoogleAIBackend"] ≠ [] := by simp
      rw [if_pos (by simp [List.length_pos_iff_ne_nil])]
      exact ⟨base ++ ["GoogleAIBackend"], hne, rfl⟩
    · rw [if_neg hg]
      rw [if_pos (by simpa [List.length_pos_iff_ne_nil] using hb)]
      exact ⟨base, hb, rfl⟩

/-- C8 witness: `claim_C8` applied to an import of `GoogleGenerativeAI`
(mapped: the fix is a `firebase/ai` import) and to an import of
`ChatSession` (unmapped: no fix). -/
theorem claim_C8_witness :
    (∃ names, names ≠ [] ∧
      computeImportFix [ImportSpec.importSpecifier (some "GoogleGenerativeAI") "GoogleGenerativeAI"] =
        some (RuleFix.replaceText
          ("import \x7b " ++ String.intercalate ", " names ++ " \x7d from 'firebase/ai';"))) ∧
    computeImportFix [ImportSpec.importSpecifier (some "ChatSession") "ChatSession"] = none :=
  ⟨(claim_C8 [ImportSpec.importSpecifier (some "GoogleGenerativeAI") "GoogleGenerativeAI"]).2.2.2
      ⟨_, List.mem_singleton.mpr rfl, by decide⟩,
   (claim_C8 [ImportSpec.importSpecifier (some "ChatSession") "ChatSession"]).2.2.1
      (by decide) (by decide)⟩

/- ------------------------------------------------------------------
C7: fact stores are monotone within a file.
------------------------------------------------------------------ -/

/-- C7: the per-file fact stores only grow.  For any state reached at
some point of a file's traversal and any further events, every fact set
of `require-ai-before-model` (aiVariables, classAiProperties,
aiWrapperFunctions, importedAIWrappers) and of `no-streaming-with-schema`
(modelsWithSchema, classModelProperties, chatsFromSchemaModels) after
the further events is a superset of the set at the earlier point: no
visitor callback removes or overwrites a recorded fact. -/
theorem claim_C7 (st : AiRuleState) (st₂ : StreamingState) (events : List Event) :
    st.aiVariables ⊆ (aiFold st events).1.aiVariables ∧
    st.classAiProperties ⊆ (aiFold st events).1.classAiProperties ∧
    st.aiWrapperFunctions ⊆ (aiFold st events).1.aiWrapperFunctions ∧
    st.importedAIWrappers ⊆ (aiFold st events).1.importedAIWrappers ∧
    st₂.modelsWithSchema ⊆ (streamingFold st₂ events).1.modelsWithSchema ∧
    st₂.classModelProperties ⊆ (streamingFold st₂ events).1.classModelProperties ∧
    st₂.chatsFromSchemaModels ⊆ (streamingFold st₂ events).1.chatsFromSchemaModels := by
  have h1 := aiFold_subset events st
  have h2 := streamingFold_subset events st₂
  exact ⟨h1.1, h1.2.1, h1.2.2.1, h1.2.2.2, h2.1, h2.2.1, h2.2.2⟩

/- ------------------------------------------------------------------
C1: require-ai-before-model producer/consumer scenario.
------------------------------------------------------------------ -/

theorem aiFold_append (l₁ l₂ : List Event) (st : AiRuleState) :
    aiFold st (l₁ ++ l₂) =
      ((aiFold (aiFold st l₁).1 l₂).1,
       (aiFold st l₁).2 ++ (aiFold (aiFold st l₁).1 l₂).2) := by
  induction l₁ generalizing st with
  | nil => simp [aiFold]
  | cons ev rest ih =>
      simp only [List.cons_append, aiFold, List.append_eq, ih, List.append_assoc]

theorem runAiBeforeModel_snoc (pre : List Event) (ev : Event) :
    runAiBeforeModel (pre ++ [ev]) =
      runAiBeforeModel pre ++ (aiStep (aiStateOf pre) ev).2 := by
  unfold runAiBeforeModel aiStateOf
  rw [aiFold_append]
  simp [aiFold]

/-- A producer declaration `const x = getAI(app)` as a traversal event. -/
def producerVarDecl (x : String) : Event :=
  Event.varDeclarator (Node.Identifier x)
    (some (Node.CallExpression (Node.Identifier "getAI") [Node.Identifier "app"]))

/-- The consumer call the claim is about: `getGenerativeModel(x, ...)`
with a plain identifier first argument. -/
def ggmConsumer (x : String) (rest : List Node) (parent : ParentCtx) : Event :=
  Event.callExpr
    (Node.CallExpression (Node.Identifier "getGenerativeModel") (Node.Identifier x :: rest))
    parent

theorem checkGGM_identifier (st : AiRuleState) (x : String) (rest : List Node) :
    checkGetGenerativeModel st
        (Node.CallExpression (Node.Identifier "getGenerativeModel") (Node.Identifier x :: rest)) =
      (if isKnownAiInstance st x then []
       else if st.aiVariables.isEmpty && st.classAiProperties.isEmpty
               && !strStartsWith x "this." then []
       else [⟨Anchor.node (Node.Identifier x), "wrongFirstArg", [("argType", x)], none⟩]) := by
  rfl

theorem producer_recorded (pre : List Event) (x : String) (args : List Node)
    (st : AiRuleState)
    (h : Event.varDeclarator (Node.Identifier x)
          (some (Node.CallExpression (Node.Identifier "getAI") args)) ∈ pre) :
    x ∈ (aiFold st pre).1.aiVariables := by
  induction pre generalizing st with
  | nil => simp at h
  | cons ev rest ih =>
      have hcons : ∀ (e : Event) (s : AiRuleState),
          (aiFold s (e :: rest)).1 = (aiFold (aiStep s e).1 rest).1 := by
        intro e s
        simp [aiFold]
      rcases List.mem_cons.mp h with heq | hmem
      · subst heq
        rw [hcons]
        have hstep : (aiStep st (Event.varDeclarator (Node.Identifier x)
            (some (Node.CallExpression (Node.Identifier "getAI") args)))).1 =
            { st with aiVariables := addStr st.aiVariables x } := rfl
        rw [hstep]
        exact (aiFold_subset rest _).1 (mem_addStr_self st.aiVariables x)
      · rw [hcons]
        exact ih _ hmem

/-- C1 counterexample: the claim states that a file whose only content
is a consumer call `getGenerativeModel(ai, {...})` — a name with no
matching `getAI` producer anywhere earlier in the file — gets exactly
one finding at the consumer call.  The rule deliberately skips the
report when no `getAI` fact was tracked in the file at all (the AI
instance might be imported), so it emits zero findings here, and its
own test suite lists this very input as valid. -/
theorem claim_C1_counterexample :
    runAiBeforeModel [ggmConsumer "ai" [Node.ObjectExpression []] ParentCtx.otherParent] = [] := rfl

/-- C1 amended: for a `getGenerativeModel` consumer whose first argument
is a plain identifier `x`: (a) when no producer fact at all was recorded
earlier in the file (both fact sets empty) and `x` is not a
`this.`-pattern, the rule conservatively reports nothing; (b) when at
least one producer fact was recorded earlier but `x` itself is not
recorded (and is a plain undotted name), the rule emits exactly one
`wrongFirstArg` finding anchored at the first argument (not at the call
node); (c) when the `getAI` producer's result was assigned to `x`
earlier in the file, the consumer passing that exact name yields zero
findings. -/
theorem claim_C1 (pre : List Event) (x : String) (rest : List Node)
    (args : List Node) (parent : ParentCtx) :
    (((aiStateOf pre).aiVariables.isEmpty && (aiStateOf pre).classAiProperties.isEmpty) = true →
      strStartsWith x "this." = false →
      runAiBeforeModel (pre ++ [ggmConsumer x rest parent]) = runAiBeforeModel pre) ∧
    (((aiStateOf pre).aiVariables.isEmpty && (aiStateOf pre).classAiProperties.isEmpty) = false →
      (aiStateOf pre).aiVariables.contains x = false →
      (aiStateOf pre).classAiProperties.contains x = false →
      strContainsChar x '.' = false →
      runAiBeforeModel (pre ++ [ggmConsumer x rest parent]) =
        runAiBeforeModel pre ++
          [⟨Anchor.node (Node.Identifier x), "wrongFirstArg", [("argType", x)], none⟩]) ∧
    (Event.varDeclarator (Node.Identifier x)
        (some (Node.CallExpression (Node.Identifier "getAI") args)) ∈ pre →
      runAiBeforeModel (pre ++ [ggmConsumer x rest parent]) = runAiBeforeModel pre) := by
  have hsnoc := runAiBeforeModel_snoc pre (ggmConsumer x rest parent)
  have hstep : (aiStep (aiStateOf pre) (ggmConsumer x rest parent)).2 =
      checkGetGenerativeModel (aiStateOf pre)
        (Node.CallExpression (Node.Identifier "getGenerativeModel")
          (Node.Identifier x :: rest)) := rfl
  refine ⟨?_, ?_, ?_⟩
  · intro hempty hthis
    rw [hsnoc, hstep, checkGGM_identifier]
    by_cases hk : isKnownAiInstance (aiStateOf pre) x
    · rw [if_pos hk]; simp
    · rw [if_neg hk]
      rw [Bool.and_eq_true] at hempty
      rw [if_pos (by rw [hempty.1, hempty.2, hthis]; rfl)]
      simp
  · intro hne hc1 hc2 hdot
    rw [hsnoc, hstep, checkGGM_identifier]
    have hk : isKnownAiInstance (aiStateOf pre) x = false := by
      unfold isKnownAiInstance
      rw [hc1, hc2, hdot]
      simp
    rw [if_neg (by rw [hk]; exact Bool.false_ne_true)]
    rw [if_neg (by
      intro hcon
      rw [Bool.and_eq_true, Bool.and_eq_true] at hcon
      rw [hcon.1.1, hcon.1.2] at hne
      simp at hne)]
  · intro hmem
    rw [hsnoc, hstep, checkGGM_identifier]
    have hx : x ∈ (aiStateOf pre).aiVariables := producer_recorded pre x args _ hmem
    have hk : isKnownAiInstance (aiStateOf pre) x = true := by
      unfold isKnownAiInstance
      rw [if_pos (List.elem_iff.mpr hx)]
    rw [if_pos hk]
    simp

/-- C1 witness: `claim_C1` applied at concrete files — producer
`const ai = getAI(app)` followed by `getGenerativeModel(ai, {...})`
yields no new finding, while producer `const b = getAI(app)` followed by
`getGenerativeModel(ai, {...})` yields exactly one finding anchored at
the argument `ai`. -/
theorem claim_C1_witness :
    runAiBeforeModel
        [producerVarDecl "ai", ggmConsumer "ai" [Node.ObjectExpression []] ParentCtx.otherParent] =
      runAiBeforeModel [producerVarDecl "ai"] ∧
    runAiBeforeModel
        [producerVarDecl "b", ggmConsumer "ai" [Node.ObjectExpression []] ParentCtx.otherParent] =
      runAiBeforeModel [producerVarDecl "b"] ++
        [⟨Anchor.node (Node.Identifier "ai"), "wrongFirstArg", [("argType", "ai")], none⟩] :=
  ⟨(claim_C1 [producerVarDecl "ai"] "ai" [Node.ObjectExpression []]
      [Node.Identifier "app"] ParentCtx.otherParent).2.2 (List.mem_singleton.mpr rfl),
   (claim_C1 [producerVarDecl "b"] "ai" [Node.ObjectExpression []]
      [Node.Identifier "app"] ParentCtx.otherParent).2.1 rfl rfl rfl rfl⟩
